import Mathlib

/-!
Verification development for the SYDNY voice-assistant repository.

The repository is a Python voice assistant.  This file gives a shallow
embedding of the pure decision logic of its four modules:

* `main.py` — the confirmation gate `get_confirmation` and the
  rule-based intent matcher `parse_command` (the copy in
  `sydny_integrated.py` is textually identical on the parsing rules);
* `windows_system.py` — the OS-control collaborators, including the
  global announce-only safety flag and the file search;
* `task_system.py` — the JSON-backed task store.

Python strings are modelled as Lean `String`, Python lists as Lean
`List`, and each statement of the Python source is translated clause by
clause.  Effectful collaborator calls (subprocess launches, COM volume
calls, file-system mutations) are modelled by emitting an explicit
`OSAction` value instead of performing the action, so that "performs no
OS change" is the statement "the emitted action list is empty".
-/

/-! ## String primitives (models of the Python string operations used) -/

/-- Model of Python `str.lower` restricted to ASCII letters, which is
all the assistant's vocabulary uses. -/
def asciiLower (c : Char) : Char :=
  if c.toNat ≥ 65 ∧ c.toNat ≤ 90 then Char.ofNat (c.toNat + 32) else c

/-- Model of Python `text.lower()`. -/
def lowerStr (s : String) : String := String.mk (s.data.map asciiLower)

/-- Helper for `pySplit`: walks the character list accumulating the
current word (in reverse), emitting a word at each whitespace run. -/
def wordsAux : List Char → List Char → List String
  | [], cur => if cur.isEmpty then [] else [String.mk cur.reverse]
  | c :: cs, cur =>
      if c.isWhitespace then
        (if cur.isEmpty then wordsAux cs [] else String.mk cur.reverse :: wordsAux cs [])
      else wordsAux cs (c :: cur)

/-- Model of Python `text.split()`: split on runs of whitespace,
discarding empty words. -/
def pySplit (s : String) : List String := wordsAux s.data []

/-- Model of Python `str.strip()`: drop leading and trailing whitespace. -/
def pyStrip (s : String) : String :=
  String.mk (((s.data.dropWhile Char.isWhitespace).reverse.dropWhile Char.isWhitespace).reverse)

/-- Boolean test that the first character list is a prefix of the second. -/
def listPrefixOf : List Char → List Char → Bool
  | [], _ => true
  | _ :: _, [] => false
  | a :: as, b :: bs => a == b && listPrefixOf as bs

/-- Boolean test that the first character list occurs contiguously
inside the second. -/
def listSubstr : List Char → List Char → Bool
  | n, [] => n.isEmpty
  | n, b :: bs => listPrefixOf n (b :: bs) || listSubstr n bs

/-- Model of the Python substring test `needle in hay` on strings. -/
def pythonIn (needle hay : String) : Bool := listSubstr needle.data hay.data

/-- Model of Python `word.isdigit()`: non-empty and every character a
decimal digit. -/
def pyIsDigit (s : String) : Bool := !s.data.isEmpty && s.data.all Char.isDigit

/-- Model of Python `" ".join(words)`. -/
def joinSpace : List String → String
  | [] => ""
  | [w] => w
  | w :: ws => w ++ " " ++ joinSpace ws

/-! ## Intent matcher (`parse_command`, main.py lines 91-178) -/

/-- Closed enumeration of intents produced by the matcher.  The Python
code uses the strings `"open"`, `"close"`, `"openfile"`, `"search"`,
`"delete"`, `"volume"`, `"mute"`, `"unmute"`, `"shutdown"`,
`"restart"`, `"sleep"`, `"exit"`; the Python value `None` (no command
found) is `Unknown` here. -/
inductive Intent where
  | Open | Close | OpenFile | Search | Delete | Volume
  | Mute | Unmute | Shutdown | Restart | Sleep | Exit | Unknown
deriving DecidableEq, Repr

/-- Filler words removed before matching (main.py lines 98-101). -/
def fillerWords : List String :=
  ["please", "could", "you", "can", "would", "will",
   "up", "the", "a", "an", "for", "me", "my"]

/-- Lowercase, whitespace-split and filler-strip an utterance
(main.py lines 104-107). -/
def strippedTokens (text : String) : List String :=
  (pySplit (lowerStr text)).filter (fun w => !(fillerWords.contains w))

/-- Rules 7-13 of the matcher: mute, unmute, shutdown/shut, restart,
sleep, exit/quit, otherwise no command (main.py lines 154-174). -/
def stepRest (cw : List String) : Intent × Option String :=
  if "mute" ∈ cw then (Intent.Mute, none)
  else if "unmute" ∈ cw then (Intent.Unmute, none)
  else if "shutdown" ∈ cw ∨ "shut" ∈ cw then (Intent.Shutdown, none)
  else if "restart" ∈ cw then (Intent.Restart, none)
  else if "sleep" ∈ cw then (Intent.Sleep, none)
  else if "exit" ∈ cw ∨ "quit" ∈ cw then (Intent.Exit, none)
  else (Intent.Unknown, none)

/-- Volume rule: remove the first `"volume"` token (Python
`list.remove`), then return the first all-digit remaining token if any
(main.py lines 146-152). -/
def stepVolume (cw : List String) : Intent × Option String :=
  if "volume" ∈ cw then
    match (cw.erase "volume").find? pyIsDigit with
    | some w => (Intent.Volume, some w)
    | none => (Intent.Volume, none)
  else stepRest cw

/-- Delete rule: drop every `"delete"` and `"file"` token; a non-empty
remainder is the target, an empty remainder falls through with the
reassigned (filtered) word list (main.py lines 139-143). -/
def stepDelete (cw : List String) : Intent × Option String :=
  if "delete" ∈ cw then
    let rem := cw.filter (fun w => !(w == "delete" || w == "file"))
    if rem ≠ [] then (Intent.Delete, some (joinSpace rem)) else stepVolume rem
  else stepVolume cw

/-- Search rule: drop every `"search"`, `"find"` and `"file"` token
(main.py lines 131-136). -/
def stepSearch (cw : List String) : Intent × Option String :=
  if "search" ∈ cw ∨ "find" ∈ cw then
    let rem := cw.filter (fun w => !(w == "search" || w == "find" || w == "file"))
    if rem ≠ [] then (Intent.Search, some (joinSpace rem)) else stepDelete rem
  else stepDelete cw

/-- Close rule: remove the first `"close"` token (main.py lines 124-128). -/
def stepClose (cw : List String) : Intent × Option String :=
  if "close" ∈ cw then
    let rem := cw.erase "close"
    if rem ≠ [] then (Intent.Close, some (joinSpace rem)) else stepSearch rem
  else stepSearch cw

/-- Open rule: remove the first `"open"` token (main.py lines 117-121). -/
def stepOpen (cw : List String) : Intent × Option String :=
  if "open" ∈ cw then
    let rem := cw.erase "open"
    if rem ≠ [] then (Intent.Open, some (joinSpace rem)) else stepClose rem
  else stepClose cw

/-- Open-file rule, checked first: if both `"file"` and `"open"` occur,
drop every occurrence of both; a non-empty remainder is the target, and
an empty remainder falls through with the reassigned word list
(main.py lines 110-114). -/
def stepOpenFile (cw : List String) : Intent × Option String :=
  if "file" ∈ cw ∧ "open" ∈ cw then
    let rem := cw.filter (fun w => !(w == "open" || w == "file"))
    if rem ≠ [] then (Intent.OpenFile, some (joinSpace rem)) else stepOpen rem
  else stepOpen cw

/-- Model of `parse_command` (main.py lines 91-178; identical rules in
sydny_integrated.py lines 359-444). -/
def parse_command (text : String) : Intent × Option String :=
  stepOpenFile (strippedTokens text)

/-! ## Confirmation gate (`get_confirmation`, main.py lines 55-89) -/

/-- Outcome of one recognized utterance inside the confirmation loop. -/
inductive ConfirmOutcome where
  | yes | no | reprompt
deriving DecidableEq, Repr

/-- Decision the loop body takes on a non-empty recognized text
(main.py lines 72-86): Python substring tests `"yes" in text` etc. on
the lowercased text, yes-words checked before no-words. -/
def confirmStep (text : String) : ConfirmOutcome :=
  let t := lowerStr text
  if pythonIn "yes" t || pythonIn "yeah" t || pythonIn "confirm" t then ConfirmOutcome.yes
  else if pythonIn "no" t || pythonIn "cancel" t || pythonIn "nope" t then ConfirmOutcome.no
  else ConfirmOutcome.reprompt

/-- One event observed by the confirmation loop: a recognition result
(possibly the empty string) or an exception raised anywhere inside the
`try` block (speaking the prompt, the audio read, recognition). -/
inductive ConfirmEvent where
  | recognized (text : String)
  | fault
deriving DecidableEq, Repr

/-- Model of `get_confirmation` run against a stream of events.  The
result is the returned boolean (`none` when the stream ends with the
gate still waiting, which in Python blocks for more audio) together
with the list of re-prompt messages spoken.  A `fault` event models an
exception, which the `except` clause turns into `return False`
(main.py lines 87-89). -/
def get_confirmation : List ConfirmEvent → Option Bool × List String
  | [] => (none, [])
  | ConfirmEvent.fault :: _ => (some false, [])
  | ConfirmEvent.recognized t :: rest =>
      if t = "" then get_confirmation rest
      else
        match confirmStep t with
        | ConfirmOutcome.yes => (some true, [])
        | ConfirmOutcome.no => (some false, [])
        | ConfirmOutcome.reprompt =>
            ((get_confirmation rest).1, "Please say yes or no" :: (get_confirmation rest).2)

/-! ## OS collaborators (`windows_system.py`) -/

/-- Observable OS-mutating effects the collaborators can perform.  Each
constructor records one concrete subprocess / COM / file-system call of
`windows_system.py`. -/
inductive OSAction where
  | setMasterVolume (level : Int)
  | setMute (muted : Bool)
  | runShutdown
  | runRestart
  | runSleep
  | popenNotepad
  | taskkillNotepad
  | startfile (path : String)
  | shutilMove (src dst : String)
  | osRemove (path : String)
deriving DecidableEq, Repr

/-- External state the collaborators consult: whether the COM volume
interface is available, which paths exist and are regular files, and
the outcome of the `taskkill` subprocess. -/
structure SysEnv where
  volumeIfaceOk : Bool
  fileExists : String → Bool
  isFilePath : String → Bool
  taskkillRC : Int
  taskkillStderrNotFound : Bool

/-- Simplified model of Python `Path(p).name`: the component after the
last path separator (slash or backslash); for separator-free names it
is the identity, which is the only case the assistant produces. -/
def splitSepAux : List Char → List Char → List String
  | [], cur => [String.mk cur.reverse]
  | c :: cs, cur =>
      if c = '/' ∨ c = '\\' then String.mk cur.reverse :: splitSepAux cs []
      else splitSepAux cs (c :: cur)

/-- Last path component, see `splitSepAux`. -/
def pathName (p : String) : String := ((splitSepAux p.data []).getLast?).getD ""

/-- Model of `set_volume` (windows_system.py lines 35-56).  The
announce-only flag is the module-global `ANNOUNCE_ONLY`, passed here
explicitly; the `isinstance` check is subsumed by the `Int` type. -/
def set_volume (env : SysEnv) (announceOnly : Bool) (level : Int) : String × List OSAction :=
  if announceOnly then ("Would set volume to " ++ toString level ++ "%", [])
  else if ¬(0 ≤ level ∧ level ≤ 100) then ("Volume must be between 0 and 100", [])
  else if ¬env.volumeIfaceOk then ("Error: Could not access volume control", [])
  else ("Volume set to " ++ toString level ++ "%", [OSAction.setMasterVolume level])

/-- Model of `mute` (windows_system.py lines 71-84). -/
def mute (env : SysEnv) (announceOnly : Bool) : String × List OSAction :=
  if announceOnly then ("Would mute audio", [])
  else if ¬env.volumeIfaceOk then ("Error: Could not access volume control", [])
  else ("Audio muted", [OSAction.setMute true])

/-- Model of `unmute` (windows_system.py lines 86-99). -/
def unmute (env : SysEnv) (announceOnly : Bool) : String × List OSAction :=
  if announceOnly then ("Would unmute audio", [])
  else if ¬env.volumeIfaceOk then ("Error: Could not access volume control", [])
  else ("Audio unmuted", [OSAction.setMute false])

/-- Model of `shutdown_system` (windows_system.py lines 101-115),
happy path of the subprocess call. -/
def shutdown_system (announceOnly : Bool) : String × List OSAction :=
  if announceOnly then ("Would shut down the system", [])
  else ("Shutting down system", [OSAction.runShutdown])

/-- Model of `restart_system` (windows_system.py lines 117-131). -/
def restart_system (announceOnly : Bool) : String × List OSAction :=
  if announceOnly then ("Would restart the system", [])
  else ("Restarting system", [OSAction.runRestart])

/-- Model of `sleep_system` (windows_system.py lines 133-152). -/
def sleep_system (announceOnly : Bool) : String × List OSAction :=
  if announceOnly then ("Would put the system to sleep", [])
  else ("Putting system to sleep", [OSAction.runSleep])

/-- Model of `open_app` (windows_system.py lines 158-183). -/
def open_app (announceOnly : Bool) (app_name : String) : String × List OSAction :=
  if announceOnly then ("Would open " ++ app_name, [])
  else if app_name = "" then ("Invalid app name", [])
  else if pythonIn "notepad" (lowerStr app_name) then ("Opening notepad", [OSAction.popenNotepad])
  else ("I don't know how to open " ++ app_name ++ " yet", [])

/-- Model of `close_app` (windows_system.py lines 185-221): in real
mode the `taskkill` subprocess runs and the message depends on its
return code and stderr. -/
def close_app (env : SysEnv) (announceOnly : Bool) (app_name : String) : String × List OSAction :=
  if announceOnly then ("Would close " ++ app_name, [])
  else if app_name = "" then ("Invalid app name", [])
  else if pythonIn "notepad" (lowerStr app_name) then
    (if env.taskkillRC = 0 then "Closed notepad"
     else if env.taskkillStderrNotFound then "Notepad is not running"
     else "Error closing notepad", [OSAction.taskkillNotepad])
  else ("I don't know how to close " ++ app_name ++ " yet", [])

/-- Model of `open_file` (windows_system.py lines 284-309). -/
def open_file (env : SysEnv) (announceOnly : Bool) (filepath : String) : String × List OSAction :=
  if announceOnly then ("Would open " ++ pathName filepath, [])
  else if ¬env.fileExists filepath then ("File not found: " ++ filepath, [])
  else if ¬env.isFilePath filepath then ("Not a file: " ++ filepath, [])
  else ("Opening " ++ pathName filepath, [OSAction.startfile filepath])

/-- Model of `move_file` (windows_system.py lines 311-337). -/
def move_file (env : SysEnv) (announceOnly : Bool) (source destination : String) :
    String × List OSAction :=
  if announceOnly then ("Would move " ++ pathName source ++ " to " ++ destination, [])
  else if ¬env.fileExists source then ("Source file not found: " ++ source, [])
  else if ¬env.isFilePath source then ("Source is not a file: " ++ source, [])
  else ("Moved " ++ pathName source ++ " to " ++ destination,
        [OSAction.shutilMove source destination])

/-- Model of `delete_file` (windows_system.py lines 339-364). -/
def delete_file (env : SysEnv) (announceOnly : Bool) (filepath : String) :
    String × List OSAction :=
  if announceOnly then ("Would delete " ++ pathName filepath, [])
  else if ¬env.fileExists filepath then ("File not found: " ++ filepath, [])
  else if ¬env.isFilePath filepath then ("Not a file: " ++ filepath, [])
  else ("Deleted " ++ pathName filepath, [OSAction.osRemove filepath])

/-! ## File search (`search_file`, windows_system.py lines 246-282) -/

/-- One directory entry as seen by `Path.glob`: its name and whether it
is a regular file. -/
structure DirEntry where
  name : String
  isFileEntry : Bool
deriving DecidableEq, Repr

/-- Matches of the glob pattern `*filename*` inside one directory that
are regular files, as absolute path strings. -/
def dirMatches (dirPath : String) (frag : String) (entries : List DirEntry) : List String :=
  (entries.filter (fun e => e.isFileEntry && pythonIn frag e.name)).map
    (fun e => dirPath ++ "/" ++ e.name)

/-- Loop of `search_file` over the search directories: after finishing
each directory, stop if at least 5 matches were accumulated
(windows_system.py lines 262-271 — note the limit check sits outside
the per-item loop). -/
def searchDirs (frag : String) : List (String × List DirEntry) → List String → List String
  | [], acc => acc
  | (p, entries) :: rest, acc =>
      let acc' := acc ++ dirMatches p frag entries
      if acc'.length ≥ 5 then acc' else searchDirs frag rest acc'

/-- Model of `search_file`: the directory list stands for the existing
search paths returned by `get_search_paths`; an empty fragment is
rejected by the `if not filename` validation. -/
def search_file (dirs : List (String × List DirEntry)) (filename : String) : List String :=
  if filename = "" then [] else searchDirs filename dirs []

/-! ## Task store (`task_system.py`) -/

/-- One task object, with the exact fields `add_task` creates
(task_system.py lines 67-74).  `priority` stays a string, as in the
JSON document. -/
structure TaskItem where
  id : Nat
  description : String
  priority : String
  completed : Bool
  created : String
  completed_at : Option String
deriving DecidableEq, Repr

/-- Model of `add_task` (task_system.py lines 50-83): an empty
description is rejected, an unknown priority falls back to `"normal"`,
the stored description is stripped, and the new id is `len(tasks)+1`. -/
def add_task (tasks : List TaskItem) (description priority now : String) : List TaskItem × String :=
  if description = "" then (tasks, "Invalid task description")
  else
    let p := if priority = "low" ∨ priority = "normal" ∨ priority = "high"
             then priority else "normal"
    (tasks ++ [{ id := tasks.length + 1, description := pyStrip description, priority := p,
                 completed := false, created := now, completed_at := none }],
     "Added task: " ++ description)

/-- Mark the first task with the given id as completed (the `for` loop
of `complete_task` mutates the first match). -/
def markDone (task_id : Nat) (now : String) : List TaskItem → List TaskItem
  | [] => []
  | t :: ts =>
      if t.id = task_id then { t with completed := true, completed_at := some now } :: ts
      else t :: markDone task_id now ts

/-- Model of `complete_task` (task_system.py lines 124-154). -/
def complete_task (tasks : List TaskItem) (task_id : Nat) (now : String) : List TaskItem × String :=
  match tasks.find? (fun t => t.id == task_id) with
  | none => (tasks, "Task " ++ toString task_id ++ " not found")
  | some t =>
      if t.completed then (tasks, "Task " ++ toString task_id ++ " is already completed")
      else (markDone task_id now tasks, "Completed task: " ++ t.description)

/-- Renumbering loop of `delete_task` (task_system.py lines 178-179):
`for idx, t in enumerate(self.tasks, 1): t['id'] = idx`. -/
def renumber (n : Nat) : List TaskItem → List TaskItem
  | [] => []
  | t :: ts => { t with id := n } :: renumber (n + 1) ts

/-- Model of `delete_task` (task_system.py lines 156-187): remove the
first task whose id matches (Python `list.remove` on the found object),
then renumber the remaining tasks 1..N in list order. -/
def delete_task (tasks : List TaskItem) (task_id : Nat) : List TaskItem × String :=
  match tasks.find? (fun t => t.id == task_id) with
  | none => (tasks, "Task " ++ toString task_id ++ " not found")
  | some t =>
      (renumber 1 (tasks.eraseP (fun u => u.id == task_id)), "Deleted task: " ++ t.description)

/-- JSON values, the parsed form of the persisted document.  Numbers
are restricted to the naturals actually stored (task ids). -/
inductive Json where
  | null : Json
  | bool (b : Bool) : Json
  | num (n : Nat) : Json
  | str (s : String) : Json
  | arr (items : List Json) : Json
  | obj (fields : List (String × Json)) : Json

/-- JSON form of an optional string field (`completed_at`). -/
def optStr : Option String → Json
  | none => Json.null
  | some s => Json.str s

/-- JSON object a task serializes to: in Python the task already is
this dict, so this is the bridge between the typed in-memory view and
the persisted form. -/
def taskToJson (t : TaskItem) : Json :=
  Json.obj [("id", Json.num t.id), ("description", Json.str t.description),
            ("priority", Json.str t.priority), ("completed", Json.bool t.completed),
            ("created", Json.str t.created), ("completed_at", optStr t.completed_at)]

/-- Model of `save_tasks` (task_system.py lines 36-48): the document
written is `{tasks: [...], last_updated: now}`; `json.dump` followed by
`json.load` is the identity on the JSON value, so the file content is
the value itself. -/
def save_tasks (tasks : List TaskItem) (now : String) : Json :=
  Json.obj [("tasks", Json.arr (tasks.map taskToJson)),
            ("last_updated", Json.str now)]

/-- Model of `load_tasks` (task_system.py lines 21-34): a missing file
starts empty, otherwise `data.get('tasks', [])`; a document that is not
an object makes `json.load`'s consumer raise and the handler also
starts empty. -/
def load_tasks : Option Json → Json
  | none => Json.arr []
  | some (Json.obj fields) => (List.lookup "tasks" fields).getD (Json.arr [])
  | some _ => Json.arr []

/-- Fold `add_task` over a list of (description, priority, timestamp)
triples, as the round-trip property quantifies over. -/
def addAll (tasks : List TaskItem) : List (String × String × String) → List TaskItem
  | [] => tasks
  | (d, p, now) :: rest => addAll (add_task tasks d p now).1 rest

/-! ## Helper lemmas -/

theorem listPrefixOf_iff (n : List Char) : ∀ h : List Char, listPrefixOf n h = true ↔ n <+: h := by
  induction n with
  | nil => intro h; simp [listPrefixOf]
  | cons a as ih =>
    intro h
    cases h with
    | nil => simp [listPrefixOf]
    | cons b bs => simp [listPrefixOf, ih, List.cons_prefix_cons]

theorem listSubstr_iff (n : List Char) : ∀ h : List Char, listSubstr n h = true ↔ n <:+: h := by
  intro h
  induction h with
  | nil => simp [listSubstr, List.infix_nil, List.isEmpty_iff]
  | cons b bs ih => simp [listSubstr, listPrefixOf_iff, ih, List.infix_cons_iff]

theorem pythonIn_iff (n h : String) : pythonIn n h = true ↔ n.data <:+: h.data :=
  listSubstr_iff n.data h.data

theorem string_mk_ne_empty (l : List Char) (hl : l ≠ []) : String.mk l ≠ "" := by
  intro he
  exact hl (by simpa using congrArg String.data he)

theorem length_pos_of_ne_empty (s : String) (h : s ≠ "") : 0 < s.length := by
  cases s with
  | mk data =>
    cases data with
    | nil => exact absurd rfl h
    | cons c cs => simp [String.length]

theorem string_ne_empty_of_length_pos (s : String) (h : 0 < s.length) : s ≠ "" := by
  intro he
  subst he
  exact absurd h (by decide)

theorem mem_wordsAux_ne_empty :
    ∀ (cs cur : List Char) (w : String), w ∈ wordsAux cs cur → w ≠ "" := by
  intro cs
  induction cs with
  | nil =>
    intro cur w hw
    unfold wordsAux at hw
    split at hw
    · simp at hw
    · next hcur =>
      simp at hw
      subst hw
      exact string_mk_ne_empty _ (by simpa [List.isEmpty_iff] using hcur)
  | cons c cs ih =>
    intro cur w hw
    unfold wordsAux at hw
    split at hw
    · split at hw
      · exact ih [] w hw
      · next hcur =>
        rcases List.mem_cons.mp hw with h1 | h2
        · subst h1
          exact string_mk_ne_empty _ (by simpa [List.isEmpty_iff] using hcur)
        · exact ih [] w h2
    · exact ih (c :: cur) w hw

theorem mem_pySplit_ne_empty (s : String) (w : String) (hw : w ∈ pySplit s) : w ≠ "" :=
  mem_wordsAux_ne_empty s.data [] w hw

theorem mem_strippedTokens_ne_empty (text : String) :
    ∀ w ∈ strippedTokens text, w ≠ "" := by
  intro w hw
  exact mem_pySplit_ne_empty _ w (List.mem_of_mem_filter hw)

theorem joinSpace_ne_empty (a : String) (l : List String) (ha : a ≠ "") :
    joinSpace (a :: l) ≠ "" := by
  cases l with
  | nil => simpa [joinSpace] using ha
  | cons b bs =>
    apply string_ne_empty_of_length_pos
    have h1 : joinSpace (a :: b :: bs) = a ++ " " ++ joinSpace (b :: bs) := rfl
    have h2 : 0 < a.length := length_pos_of_ne_empty a ha
    rw [h1, String.length_append, String.length_append]
    omega

/-- Intents whose dispatcher branch requires a target string. -/
def targetIntents : List Intent :=
  [Intent.Open, Intent.Close, Intent.OpenFile, Intent.Search, Intent.Delete]

/-- A matcher result is well-targeted when a target-requiring intent
comes with a non-empty target string. -/
def TargetOk (r : Intent × Option String) : Prop :=
  r.1 ∈ targetIntents → ∃ s, r.2 = some s ∧ s ≠ ""

theorem stepRest_targetOk (cw : List String) : TargetOk (stepRest cw) := by
  unfold stepRest
  repeat' split
  all_goals intro h; simp [targetIntents] at h

theorem stepVolume_targetOk (cw : List String) : TargetOk (stepVolume cw) := by
  unfold stepVolume
  split
  · split
    all_goals intro h; simp [targetIntents] at h
  · exact stepRest_targetOk cw

theorem joinSpace_filter_ok (cw : List String) (hcw : ∀ w ∈ cw, w ≠ "")
    (p : String → Bool) (hne : cw.filter p ≠ []) :
    ∃ s, (some (joinSpace (cw.filter p)) : Option String) = some s ∧ s ≠ "" := by
  cases hfe : cw.filter p with
  | nil => exact absurd hfe hne
  | cons a l =>
    refine ⟨joinSpace (a :: l), rfl, ?_⟩
    apply joinSpace_ne_empty
    apply hcw
    exact List.mem_of_mem_filter (hfe.symm ▸ List.mem_cons_self a l)

theorem joinSpace_erase_ok (cw : List String) (hcw : ∀ w ∈ cw, w ≠ "")
    (x : String) (hne : cw.erase x ≠ []) :
    ∃ s, (some (joinSpace (cw.erase x)) : Option String) = some s ∧ s ≠ "" := by
  cases hfe : cw.erase x with
  | nil => exact absurd hfe hne
  | cons a l =>
    refine ⟨joinSpace (a :: l), rfl, ?_⟩
    apply joinSpace_ne_empty
    apply hcw
    exact List.mem_of_mem_erase (hfe.symm ▸ List.mem_cons_self a l)

theorem stepDelete_targetOk (cw : List String) (hcw : ∀ w ∈ cw, w ≠ "") :
    TargetOk (stepDelete cw) := by
  unfold stepDelete
  split
  · dsimp only
    split
    · next hne => exact fun _ => joinSpace_filter_ok cw hcw _ hne
    · next hne =>
      have he : cw.filter (fun w => !(w == "delete" || w == "file")) = [] :=
        not_ne_iff.mp hne
      rw [he]
      exact stepVolume_targetOk []
  · exact stepVolume_targetOk cw

theorem stepSearch_targetOk (cw : List String) (hcw : ∀ w ∈ cw, w ≠ "") :
    TargetOk (stepSearch cw) := by
  unfold stepSearch
  split
  · dsimp only
    split
    · next hne => exact fun _ => joinSpace_filter_ok cw hcw _ hne
    · next hne =>
      have he : cw.filter (fun w => !(w == "search" || w == "find" || w == "file")) = [] :=
        not_ne_iff.mp hne
      rw [he]
      exact stepDelete_targetOk [] (by simp)
  · exact stepDelete_targetOk cw hcw

theorem stepClose_targetOk (cw : List String) (hcw : ∀ w ∈ cw, w ≠ "") :
    TargetOk (stepClose cw) := by
  unfold stepClose
  split
  · dsimp only
    split
    · next hne => exact fun _ => joinSpace_erase_ok cw hcw _ hne
    · next hne =>
      have he : cw.erase "close" = [] := not_ne_iff.mp hne
      rw [he]
      exact stepSearch_targetOk [] (by simp)
  · exact stepSearch_targetOk cw hcw

theorem stepOpen_targetOk (cw : List String) (hcw : ∀ w ∈ cw, w ≠ "") :
    TargetOk (stepOpen cw) := by
  unfold stepOpen
  split
  · dsimp only
    split
    · next hne => exact fun _ => joinSpace_erase_ok cw hcw _ hne
    · next hne =>
      have he : cw.erase "open" = [] := not_ne_iff.mp hne
      rw [he]
      exact stepClose_targetOk [] (by simp)
  · exact stepClose_targetOk cw hcw

theorem stepOpenFile_targetOk (cw : List String) (hcw : ∀ w ∈ cw, w ≠ "") :
    TargetOk (stepOpenFile cw) := by
  unfold stepOpenFile
  split
  · dsimp only
    split
    · next hne => exact fun _ => joinSpace_filter_ok cw hcw _ hne
    · next hne =>
      have he : cw.filter (fun w => !(w == "open" || w == "file")) = [] :=
        not_ne_iff.mp hne
      rw [he]
      exact stepOpen_targetOk [] (by simp)
  · exact stepOpen_targetOk cw hcw

theorem parse_command_targetOk (text : String) : TargetOk (parse_command text) :=
  stepOpenFile_targetOk (strippedTokens text) (mem_strippedTokens_ne_empty text)

/-- C3: an utterance whose stripped tokens contain both "open" and
"file" plus at least one other token yields intent OpenFile whose
target is the remaining tokens (all tokens other than "open" and
"file") space-joined in original order, and never intent Open. -/
theorem C3_openfile_rule (text : String)
    (h1 : "open" ∈ strippedTokens text) (h2 : "file" ∈ strippedTokens text)
    (h3 : ∃ w ∈ strippedTokens text, w ≠ "open" ∧ w ≠ "file") :
    parse_command text =
      (Intent.OpenFile,
        some (joinSpace ((strippedTokens text).filter (fun w => !(w == "open" || w == "file"))))) ∧
    (parse_command text).1 ≠ Intent.Open := by
  have hrem : (strippedTokens text).filter (fun w => !(w == "open" || w == "file")) ≠ [] := by
    obtain ⟨w, hw, hwo, hwf⟩ := h3
    intro hnil
    have hm : w ∈ (strippedTokens text).filter (fun w => !(w == "open" || w == "file")) := by
      rw [List.mem_filter]
      exact ⟨hw, by simp [hwo, hwf]⟩
    rw [hnil] at hm
    simp at hm
  have hmain : parse_command text =
      (Intent.OpenFile,
        some (joinSpace ((strippedTokens text).filter (fun w => !(w == "open" || w == "file"))))) := by
    unfold parse_command stepOpenFile
    rw [if_pos ⟨h2, h1⟩]
    dsimp only
    rw [if_pos hrem]
  exact ⟨hmain, by rw [hmain]; simp⟩

theorem C3_witness :
    parse_command "open file document" =
      (Intent.OpenFile,
        some (joinSpace ((strippedTokens "open file document").filter
          (fun w => !(w == "open" || w == "file"))))) ∧
    (parse_command "open file document").1 ≠ Intent.Open :=
  C3_openfile_rule "open file document" (by decide) (by decide) (by decide)

/-- C7: when the stripped tokens contain "volume" and none of the
higher-priority keywords, the matcher removes the first "volume" token
and pairs intent Volume with the first all-digit remaining token, or
with no target when there is none; in particular "set volume to 50"
gives (Volume, "50") and "volume" alone gives (Volume, none). -/
theorem C7_volume_rule (text : String)
    (hvol : "volume" ∈ strippedTokens text)
    (habs : ∀ w ∈ strippedTokens text,
      w ≠ "open" ∧ w ≠ "close" ∧ w ≠ "search" ∧ w ≠ "find" ∧ w ≠ "delete") :
    parse_command text = (Intent.Volume, ((strippedTokens text).erase "volume").find? pyIsDigit) ∧
    parse_command "set volume to 50" = (Intent.Volume, some "50") ∧
    parse_command "volume" = (Intent.Volume, none) := by
  have hopen : "open" ∉ strippedTokens text := fun h => (habs _ h).1 rfl
  have hclose : "close" ∉ strippedTokens text := fun h => (habs _ h).2.1 rfl
  have hsearch : "search" ∉ strippedTokens text := fun h => (habs _ h).2.2.1 rfl
  have hfind : "find" ∉ strippedTokens text := fun h => (habs _ h).2.2.2.1 rfl
  have hdel : "delete" ∉ strippedTokens text := fun h => (habs _ h).2.2.2.2 rfl
  refine ⟨?_, by decide, by decide⟩
  unfold parse_command stepOpenFile stepOpen stepClose stepSearch stepDelete stepVolume
  rw [if_neg (fun hc => hopen hc.2), if_neg hopen, if_neg hclose,
      if_neg (fun hc => hc.elim hsearch hfind), if_neg hdel, if_pos hvol]
  cases hf : ((strippedTokens text).erase "volume").find? pyIsDigit <;> rfl

theorem C7_witness :
    parse_command "set volume to 50" =
      (Intent.Volume, ((strippedTokens "set volume to 50").erase "volume").find? pyIsDigit) ∧
    parse_command "set volume to 50" = (Intent.Volume, some "50") ∧
    parse_command "volume" = (Intent.Volume, none) :=
  C7_volume_rule "set volume to 50" (by decide) (by decide)

/-- C8: a rule whose target extraction leaves an empty remainder does
not produce its intent: an utterance stripping to the single token
"open" parses to no command at all, and intent Open is never produced
with a missing or empty target. -/
theorem C8_empty_remainder :
    (∀ text : String, strippedTokens text = ["open"] →
      parse_command text = (Intent.Unknown, none)) ∧
    (∀ text : String, (parse_command text).1 = Intent.Open →
      ∃ s, (parse_command text).2 = some s ∧ s ≠ "") := by
  constructor
  · intro text h
    unfold parse_command
    rw [h]
    decide
  · intro text h
    exact parse_command_targetOk text (by rw [h]; decide)

theorem C8_witness :
    parse_command "open" = (Intent.Unknown, none) ∧
    parse_command "please open" = (Intent.Unknown, none) :=
  ⟨C8_empty_remainder.1 "open" (by decide), C8_empty_remainder.1 "please open" (by decide)⟩

/-- C9: whenever the matcher returns one of the target-requiring
intents (Open, Close, OpenFile, Search, Delete), the paired target is
present and non-empty. -/
theorem C9_target_required (text : String) (i : Intent) (tgt : Option String)
    (hp : parse_command text = (i, tgt)) (hi : i ∈ targetIntents) :
    ∃ s, tgt = some s ∧ s ≠ "" := by
  have h := parse_command_targetOk text
  rw [hp] at h
  exact h hi

theorem C9_witness : ∃ s, (some "notepad" : Option String) = some s ∧ s ≠ "" :=
  C9_target_required "open notepad" Intent.Open (some "notepad") (by decide) (by decide)

/-- Affirmative keywords of the confirmation gate (main.py line 78). -/
def yesWords : List String := ["yes", "yeah", "confirm"]

/-- Negative keywords of the confirmation gate (main.py line 82). -/
def noWords : List String := ["no", "cancel", "nope"]

/-- Substring-level containment: some word of ws occurs contiguously
inside the lowercased text (what the Python code tests). -/
def SubAny (ws : List String) (t : String) : Prop :=
  ∃ w ∈ ws, w.data <:+: (lowerStr t).data

/-- Token-level containment: some word of ws is itself one of the
stripped tokens of the text (what the claim states). -/
def tokenAny (ws : List String) (t : String) : Prop :=
  ∃ w ∈ ws, w ∈ strippedTokens t

instance decSubAny (ws : List String) (t : String) : Decidable (SubAny ws t) := by
  unfold SubAny
  infer_instance

instance decTokenAny (ws : List String) (t : String) : Decidable (tokenAny ws t) := by
  unfold tokenAny
  infer_instance

theorem confirmYes_iff (t : String) :
    (pythonIn "yes" (lowerStr t) || pythonIn "yeah" (lowerStr t) ||
      pythonIn "confirm" (lowerStr t)) = true ↔ SubAny yesWords t := by
  simp [Bool.or_eq_true, pythonIn_iff, SubAny, yesWords, or_assoc]

theorem confirmNo_iff (t : String) :
    (pythonIn "no" (lowerStr t) || pythonIn "cancel" (lowerStr t) ||
      pythonIn "nope" (lowerStr t)) = true ↔ SubAny noWords t := by
  simp [Bool.or_eq_true, pythonIn_iff, SubAny, noWords, or_assoc]

theorem confirmStep_spec (t : String) :
    (confirmStep t = ConfirmOutcome.yes ↔ SubAny yesWords t) ∧
    (confirmStep t = ConfirmOutcome.no ↔ ¬ SubAny yesWords t ∧ SubAny noWords t) ∧
    (confirmStep t = ConfirmOutcome.reprompt ↔ ¬ SubAny yesWords t ∧ ¬ SubAny noWords t) := by
  have hy := confirmYes_iff t
  have hn := confirmNo_iff t
  unfold confirmStep
  dsimp only
  cases hb1 : (pythonIn "yes" (lowerStr t) || pythonIn "yeah" (lowerStr t) ||
      pythonIn "confirm" (lowerStr t)) with
  | true =>
    rw [hb1] at hy
    have hyy : SubAny yesWords t := hy.mp rfl
    simp [hyy]
  | false =>
    rw [hb1] at hy
    have hyy : ¬ SubAny yesWords t := by simp at hy; exact hy
    cases hb2 : (pythonIn "no" (lowerStr t) || pythonIn "cancel" (lowerStr t) ||
        pythonIn "nope" (lowerStr t)) with
    | true =>
      rw [hb2] at hn
      have hnn : SubAny noWords t := hn.mp rfl
      simp [hyy, hnn]
    | false =>
      rw [hb2] at hn
      have hnn : ¬ SubAny noWords t := by simp at hn; exact hn
      simp [hyy, hnn]

/-- C1 (amended): a non-empty recognized utterance resolves the gate to
true exactly when the lowercased text contains "yes", "yeah" or
"confirm" as a substring (checked first); otherwise it resolves to
false exactly when the lowercased text contains "no", "cancel" or
"nope" as a substring; otherwise the gate re-prompts with "Please say
yes or no" and keeps waiting on the remaining events. -/
theorem C1_confirm_substring (t : String) (rest : List ConfirmEvent) (h : t ≠ "") :
    (SubAny yesWords t →
      get_confirmation (ConfirmEvent.recognized t :: rest) = (some true, [])) ∧
    (¬ SubAny yesWords t → SubAny noWords t →
      get_confirmation (ConfirmEvent.recognized t :: rest) = (some false, [])) ∧
    (¬ SubAny yesWords t → ¬ SubAny noWords t →
      get_confirmation (ConfirmEvent.recognized t :: rest) =
        ((get_confirmation rest).1, "Please say yes or no" :: (get_confirmation rest).2)) := by
  have hspec := confirmStep_spec t
  refine ⟨?_, ?_, ?_⟩
  · intro hy
    have hs : confirmStep t = ConfirmOutcome.yes := hspec.1.mpr hy
    simp [get_confirmation, h, hs]
  · intro hny hn
    have hs : confirmStep t = ConfirmOutcome.no := hspec.2.1.mpr ⟨hny, hn⟩
    simp [get_confirmation, h, hs]
  · intro hny hn
    have hs : confirmStep t = ConfirmOutcome.reprompt := hspec.2.2.mpr ⟨hny, hn⟩
    simp [get_confirmation, h, hs]

theorem C1_witness : get_confirmation [ConfirmEvent.recognized "yes"] = (some true, []) :=
  (C1_confirm_substring "yes" [] (by decide)).1 (by decide)

/-- C1 counterexample: the recognized utterance "eyes" resolves the
gate to true (because "yes" is a substring of "eyes"), although its
stripped tokens contain none of the yes-words and none of the
no-words, so the claim as stated — resolution exactly on token
containment, otherwise re-prompt — is false at this input. -/
theorem C1_counterexample :
    get_confirmation [ConfirmEvent.recognized "eyes"] = (some true, []) ∧
    ¬ tokenAny yesWords "eyes" ∧ ¬ tokenAny noWords "eyes" :=
  ⟨by decide, by decide, by decide⟩

/-- An event that does not resolve the confirmation loop: an empty
recognition result, or a non-empty one that only re-prompts. -/
def nonResolving : ConfirmEvent → Bool
  | ConfirmEvent.recognized t => t == "" || confirmStep t == ConfirmOutcome.reprompt
  | ConfirmEvent.fault => false

/-- C10: if an exception occurs anywhere inside get_confirmation before
some utterance has resolved the gate, the function returns False. -/
theorem C10_fault_refuses (pre rest : List ConfirmEvent)
    (h : ∀ e ∈ pre, nonResolving e = true) :
    (get_confirmation (pre ++ ConfirmEvent.fault :: rest)).1 = some false := by
  induction pre with
  | nil => rfl
  | cons e pre ih =>
    have he := h e (List.mem_cons_self e pre)
    have hpre : ∀ x ∈ pre, nonResolving x = true := fun x hx => h x (List.mem_cons_of_mem e hx)
    cases e with
    | fault => simp [nonResolving] at he
    | recognized t =>
      simp only [nonResolving, Bool.or_eq_true, beq_iff_eq] at he
      by_cases ht : t = ""
      · simp [get_confirmation, ht, ih hpre]
      · have hre : confirmStep t = ConfirmOutcome.reprompt := by
          rcases he with h1 | h2
          · exact absurd h1 ht
          · exact h2
        simp [get_confirmation, ht, hre, ih hpre]

theorem C10_witness :
    (get_confirmation ([ConfirmEvent.recognized "banana"] ++
      ConfirmEvent.fault :: [])).1 = some false :=
  C10_fault_refuses [ConfirmEvent.recognized "banana"] [] (by decide)

/-- A collaborator result is announce-only when its message starts with
"Would " and it performed no OS action. -/
def wouldOnly (r : String × List OSAction) : Prop :=
  (∃ s, r.1 = "Would " ++ s) ∧ r.2 = []

theorem would_pre (lit q t : String) (h : lit = "Would " ++ q) :
    ∃ s, lit ++ t = "Would " ++ s :=
  ⟨q ++ t, by rw [h, String.append_assoc]⟩

theorem would_pre2 (lit q t u : String) (h : lit = "Would " ++ q) :
    ∃ s, lit ++ t ++ u = "Would " ++ s :=
  ⟨q ++ t ++ u, by rw [h]; simp [String.append_assoc]⟩

theorem would_pre3 (lit q t u v : String) (h : lit = "Would " ++ q) :
    ∃ s, lit ++ t ++ u ++ v = "Would " ++ s :=
  ⟨q ++ t ++ u ++ v, by rw [h]; simp [String.append_assoc]⟩

/-- C2: with the announce-only safety flag enabled, every OS-mutating
collaborator call returns a "Would …" string and emits no OS action. -/
theorem C2_announce_only (env : SysEnv) (level : Int) (name path src dst : String) :
    wouldOnly (set_volume env true level) ∧ wouldOnly (mute env true) ∧
    wouldOnly (unmute env true) ∧ wouldOnly (shutdown_system true) ∧
    wouldOnly (restart_system true) ∧ wouldOnly (sleep_system true) ∧
    wouldOnly (open_app true name) ∧ wouldOnly (close_app env true name) ∧
    wouldOnly (open_file env true path) ∧ wouldOnly (move_file env true src dst) ∧
    wouldOnly (delete_file env true path) := by
  unfold wouldOnly
  refine ⟨⟨?_, rfl⟩, ⟨?_, rfl⟩, ⟨?_, rfl⟩, ⟨?_, rfl⟩, ⟨?_, rfl⟩, ⟨?_, rfl⟩,
         ⟨?_, rfl⟩, ⟨?_, rfl⟩, ⟨?_, rfl⟩, ⟨?_, rfl⟩, ⟨?_, rfl⟩⟩
  · exact would_pre2 "Would set volume to " "set volume to " (toString level) "%" (by decide)
  · refine ⟨"mute audio", ?_⟩
    show ("Would mute audio" : String) = "Would " ++ "mute audio"
    decide
  · refine ⟨"unmute audio", ?_⟩
    show ("Would unmute audio" : String) = "Would " ++ "unmute audio"
    decide
  · exact ⟨"shut down the system", by decide⟩
  · exact ⟨"restart the system", by decide⟩
  · exact ⟨"put the system to sleep", by decide⟩
  · exact would_pre "Would open " "open " name (by decide)
  · exact would_pre "Would close " "close " name (by decide)
  · exact would_pre "Would open " "open " (pathName path) (by decide)
  · exact would_pre3 "Would move " "move " (pathName src) " to " dst (by decide)
  · exact would_pre "Would delete " "delete " (pathName path) (by decide)

/-- One search directory holding six files whose names all contain the
fragment "report". -/
def overfullDir : List (String × List DirEntry) :=
  [("Users/u/Desktop",
    [⟨"report1.txt", true⟩, ⟨"report2.txt", true⟩, ⟨"report3.txt", true⟩,
     ⟨"report4.txt", true⟩, ⟨"report5.txt", true⟩, ⟨"report6.txt", true⟩])]

/-- C4 fails on the code: searching for "report" against a single
directory with six matching files returns all six paths, because the
5-match cut-off is only checked between directories, never inside one
(contradicting the docstring "up to 5 matches"). -/
theorem C4_limit_exceeded :
    (search_file overfullDir "report").length = 6 ∧
    ¬ (search_file overfullDir "report").length ≤ 5 := by decide

/-- Id sequence of a task list, in list order. -/
def idsSeq (ts : List TaskItem) : List Nat := ts.map (fun t => t.id)

/-- The invariant of the task store: ids are dense and contiguous,
1..N in list order. -/
def idsContiguous (ts : List TaskItem) : Prop := idsSeq ts = List.range' 1 ts.length

instance decIdsContiguous (ts : List TaskItem) : Decidable (idsContiguous ts) := by
  unfold idsContiguous
  infer_instance

theorem range'_concat_one (s n : Nat) : List.range' s (n + 1) = List.range' s n ++ [s + n] := by
  induction n generalizing s with
  | zero => rw [List.range'_succ]; simp
  | succ n ih =>
    rw [List.range'_succ, ih (s + 1), List.range'_succ, List.cons_append]
    have harith : s + 1 + n = s + (n + 1) := by omega
    rw [harith]

theorem add_task_idsContiguous (ts : List TaskItem) (h : idsContiguous ts) (d p now : String) :
    idsContiguous (add_task ts d p now).1 := by
  unfold add_task
  split
  · exact h
  · dsimp only
    unfold idsContiguous idsSeq at h ⊢
    rw [List.map_append, h, List.length_append]
    simp only [List.map_cons, List.map_nil, List.length_cons, List.length_nil,
      Nat.zero_add]
    rw [range'_concat_one]
    congr 1
    rw [Nat.add_comm]

theorem markDone_idsSeq (tid : Nat) (now : String) :
    ∀ ts : List TaskItem, idsSeq (markDone tid now ts) = idsSeq ts := by
  intro ts
  induction ts with
  | nil => rfl
  | cons t ts ih =>
    unfold markDone
    split
    · simp [idsSeq]
    · simp only [idsSeq, List.map_cons]
      simp only [idsSeq] at ih
      rw [ih]

theorem markDone_length (tid : Nat) (now : String) (ts : List TaskItem) :
    (markDone tid now ts).length = ts.length := by
  have h := congrArg List.length (markDone_idsSeq tid now ts)
  simpa [idsSeq] using h

theorem complete_task_idsContiguous (ts : List TaskItem) (h : idsContiguous ts)
    (tid : Nat) (now : String) : idsContiguous (complete_task ts tid now).1 := by
  unfold complete_task
  cases hf : ts.find? (fun t => t.id == tid) with
  | none => exact h
  | some t =>
    dsimp only
    split
    · exact h
    · unfold idsContiguous
      rw [markDone_idsSeq, markDone_length]
      exact h

theorem renumber_idsSeq : ∀ (ts : List TaskItem) (n : Nat),
    idsSeq (renumber n ts) = List.range' n ts.length := by
  intro ts
  induction ts with
  | nil => intro n; rfl
  | cons t ts ih =>
    intro n
    show idsSeq ({ t with id := n } :: renumber (n + 1) ts) = List.range' n (ts.length + 1)
    rw [List.range'_succ]
    simp only [idsSeq, List.map_cons]
    simp only [idsSeq] at ih
    rw [ih (n + 1)]

theorem renumber_length : ∀ (ts : List TaskItem) (n : Nat),
    (renumber n ts).length = ts.length := by
  intro ts
  induction ts with
  | nil => intro n; rfl
  | cons t ts ih =>
    intro n
    show ({ t with id := n } :: renumber (n + 1) ts).length = ts.length + 1
    simp [ih (n + 1)]

theorem delete_task_idsContiguous (ts : List TaskItem) (h : idsContiguous ts) (tid : Nat) :
    idsContiguous (delete_task ts tid).1 := by
  unfold delete_task
  cases hf : ts.find? (fun t => t.id == tid) with
  | none => exact h
  | some t =>
    dsimp only
    unfold idsContiguous
    rw [renumber_idsSeq, renumber_length]

theorem delete_task_length (ts : List TaskItem) (tid : Nat) (hmem : tid ∈ idsSeq ts) :
    (delete_task ts tid).1.length = ts.length - 1 := by
  obtain ⟨t, ht, hid⟩ : ∃ t ∈ ts, t.id = tid := by
    simpa [idsSeq, eq_comm] using hmem
  have hp : (fun u : TaskItem => u.id == tid) t = true := by simp [hid]
  cases hf : ts.find? (fun u => u.id == tid) with
  | none =>
    have hsome : (ts.find? (fun u => u.id == tid)).isSome := List.find?_isSome.mpr ⟨t, ht, hp⟩
    rw [hf] at hsome
    simp at hsome
  | some u =>
    unfold delete_task
    rw [hf]
    dsimp only
    rw [renumber_length, List.length_eraseP_of_mem ht hp]

/-- C5: starting from a task list whose ids are the contiguous sequence
1..N in list order, every store operation (add_task, complete_task,
delete_task) preserves that invariant, and deleting an existing id
leaves exactly N-1 tasks renumbered 1..N-1. -/
theorem C5_ids_invariant (ts : List TaskItem) (h : idsContiguous ts)
    (d p now : String) (tid : Nat) :
    idsContiguous (add_task ts d p now).1 ∧
    idsContiguous (complete_task ts tid now).1 ∧
    idsContiguous (delete_task ts tid).1 ∧
    (tid ∈ idsSeq ts → (delete_task ts tid).1.length = ts.length - 1) :=
  ⟨add_task_idsContiguous ts h d p now,
   complete_task_idsContiguous ts h tid now,
   delete_task_idsContiguous ts h tid,
   fun hmem => delete_task_length ts tid hmem⟩

/-- Concrete one-element task store used to instantiate the invariant. -/
def demoTask : TaskItem :=
  { id := 1, description := "buy milk", priority := "normal",
    completed := false, created := "2026-01-01", completed_at := none }

theorem C5_witness :
    idsContiguous (add_task [demoTask] "call" "high" "2026-01-02").1 ∧
    idsContiguous (complete_task [demoTask] 1 "2026-01-02").1 ∧
    idsContiguous (delete_task [demoTask] 1).1 ∧
    (1 ∈ idsSeq [demoTask] → (delete_task [demoTask] 1).1.length = [demoTask].length - 1) :=
  C5_ids_invariant [demoTask] (by decide) "call" "high" "2026-01-02" 1

theorem addAll_length : ∀ (items : List (String × String × String)) (ts : List TaskItem),
    (∀ x ∈ items, x.1 ≠ "") → (addAll ts items).length = ts.length + items.length := by
  intro items
  induction items with
  | nil => intro ts h; rfl
  | cons x items ih =>
    intro ts h
    obtain ⟨d, p, now⟩ := x
    have hd : d ≠ "" := h (d, p, now) (List.mem_cons_self (d, p, now) items)
    unfold addAll
    rw [ih _ (fun y hy => h y (List.mem_cons_of_mem (d, p, now) hy))]
    unfold add_task
    rw [if_neg hd]
    dsimp only
    rw [List.length_append]
    simp only [List.length_cons, List.length_nil]
    omega

theorem save_load_roundtrip (ts : List TaskItem) (now : String) :
    load_tasks (some (save_tasks ts now)) = Json.arr (ts.map taskToJson) := by
  simp [load_tasks, save_tasks, List.lookup]

theorem optStr_inj (x y : Option String) (h : optStr x = optStr y) : x = y := by
  cases x <;> cases y <;> simp_all [optStr]

theorem taskToJson_inj (a b : TaskItem) (h : taskToJson a = taskToJson b) : a = b := by
  cases a
  cases b
  simp [taskToJson] at h
  obtain ⟨h1, h2, h3, h4, h5, h6⟩ := h
  have h7 := optStr_inj _ _ h6
  subst h1
  subst h2
  subst h3
  subst h4
  subst h5
  subst h7
  rfl

/-- C6: adding N valid (non-empty) descriptions and reloading the
persisted document returns exactly the stored task objects — the loaded
value is the encoding of the in-memory list, the list has length N, and
the encoding is injective, so equal encodings mean field-identical
tasks. -/
theorem C6_roundtrip (items : List (String × String × String)) (now : String)
    (h : ∀ x ∈ items, x.1 ≠ "") :
    load_tasks (some (save_tasks (addAll [] items) now)) =
      Json.arr ((addAll [] items).map taskToJson) ∧
    (addAll [] items).length = items.length ∧
    (∀ a b : TaskItem, taskToJson a = taskToJson b → a = b) :=
  ⟨save_load_roundtrip _ now,
   by simpa using addAll_length items [] h,
   fun a b hab => taskToJson_inj a b hab⟩

theorem C6_witness :
    load_tasks (some (save_tasks
        (addAll [] [("buy milk", "high", "t1"), ("call mom", "normal", "t2")]) "t3")) =
      Json.arr ((addAll [] [("buy milk", "high", "t1"), ("call mom", "normal", "t2")]).map
        taskToJson) ∧
    (addAll [] [("buy milk", "high", "t1"), ("call mom", "normal", "t2")]).length = 2 ∧
    (∀ a b : TaskItem, taskToJson a = taskToJson b → a = b) :=
  C6_roundtrip [("buy milk", "high", "t1"), ("call mom", "normal", "t2")] "t3" (by decide)
